import Mathlib

/-!
Verification of the ftrace bundle tokenizer
(`src/trace_processor/importers/ftrace/ftrace_tokenizer.cc`).

The development shallowly embeds the tokenizer: machine integers become
`Nat`/`Int` with explicit two's-complement wrapping where the code relies on
64-bit arithmetic, protobuf-decoded records become structures of their decoded
field values, byte buffers become `List Nat`, and the external collaborators
(clock tracker, string storage, event sink, stat counters) become function
parameters and explicit result fields.
-/

namespace FtraceTokenizer

/-- Signed interpretation of an unsigned 64-bit value, modelling
`static_cast<int64_t>` applied to a `uint64_t`. -/
def toInt64 (n : Nat) : Int :=
  if n % 2 ^ 64 < 2 ^ 63 then ((n % 2 ^ 64 : Nat) : Int)
  else ((n % 2 ^ 64 : Nat) : Int) - 2 ^ 64

/-- Two's-complement wrap of an integer into the signed 64-bit range,
modelling overflow of `int64_t` addition. -/
def wrap64 (x : Int) : Int := (x + 2 ^ 63) % 2 ^ 64 - 2 ^ 63

/-- Modelled from the spec: the Varint Reader
(`protozero::proto_utils::ParseVarInt`, not under `src/`) decodes a base-128
variable-length integer from a byte range, returning the decoded 64-bit value
and the remaining bytes, or `none` on insufficient or malformed bytes.
Decoding stops once the shift reaches 64 bits (at most ten bytes are read for
one varint) and the accumulated value is truncated to 64 bits. -/
def parseVarIntAux : List Nat → Nat → Nat → Option (Nat × List Nat)
  | [], _, _ => none
  | b :: bs, shift, acc =>
    if 64 ≤ shift then none
    else if b % 256 < 128 then some ((acc + b % 128 * 2 ^ shift) % 2 ^ 64, bs)
    else parseVarIntAux bs (shift + 7) (acc + b % 128 * 2 ^ shift)

/-- Entry point of the varint reader: parse from the head of `bytes`. -/
def parseVarInt (bytes : List Nat) : Option (Nat × List Nat) :=
  parseVarIntAux bytes 0 0

/-- Modelled from the spec: `FtraceEvent::kTimestampFieldNumber`, the
conventional field number of the event timestamp (proto schema not under
`src/`). -/
def kTimestampFieldNumber : Nat := 1

/-- `MakeTagVarInt(kTimestampFieldNumber)`: the single tag byte
`(field_number << 3) | varint_wire_type = 8`. -/
def kTimestampFieldTag : Nat := 8

/-- Little-endian value of a byte list (used for fixed-width wire types). -/
def leVal (bs : List Nat) : Nat :=
  bs.foldr (fun b acc => b % 256 + 256 * acc) 0

/-- Modelled from the spec: the Field-Tag Prober's slow path
(`protozero::ProtoDecoder::FindField`, not under `src/`): a generic linear
field-by-field scan of one serialized record until the requested field number
is found, returning that field's numeric value (`as_uint64`), or `none` when
the record is malformed or the field is absent.  Fields with a non-varint
wire type are skipped by their encoded width; the timestamp field of this
format is a varint, so the value returned for a length-delimited match is
irrelevant to the properties below. -/
def findFieldAux (fieldNr : Nat) : Nat → List Nat → Option Nat
  | 0, _ => none
  | fuel + 1, bytes =>
    match parseVarInt bytes with
    | none => none
    | some (tag, rest) =>
      if tag / 8 = 0 then none
      else
        match tag % 8 with
        | 0 =>
          match parseVarInt rest with
          | none => none
          | some (v, rest2) =>
            if tag / 8 = fieldNr then some v else findFieldAux fieldNr fuel rest2
        | 1 =>
          if 8 ≤ rest.length then
            if tag / 8 = fieldNr then some (leVal (rest.take 8))
            else findFieldAux fieldNr fuel (rest.drop 8)
          else none
        | 2 =>
          match parseVarInt rest with
          | none => none
          | some (len, rest2) =>
            if len ≤ rest2.length then
              if tag / 8 = fieldNr then some 0
              else findFieldAux fieldNr fuel (rest2.drop len)
            else none
        | 5 =>
          if 4 ≤ rest.length then
            if tag / 8 = fieldNr then some (leVal (rest.take 4))
            else findFieldAux fieldNr fuel (rest.drop 4)
          else none
        | _ => none

/-- `ProtoDecoder::FindField` over a whole record (fuel bounded by the record
length: every parsed field consumes at least one byte). -/
def FindField (bytes : List Nat) (fieldNr : Nat) : Option Nat :=
  findFieldAux fieldNr (bytes.length + 1) bytes

/-- Fast path of `TokenizeFtraceEvent` (lines 116-120): after the tag byte at
position 0, decode a varint from the bounded window `[data + 1, data + 11)`;
`timestamp_found` is `next != data + 1`, i.e. success of the bounded parse. -/
def fastpathTimestamp (data : List Nat) : Option Nat :=
  (parseVarInt ((data.drop 1).take 10)).map Prod.fst

/-- Slow path of `TokenizeFtraceEvent` (lines 122-127): generic scan for the
timestamp field number. -/
def slowpathTimestamp (data : List Nat) : Option Nat :=
  FindField data kTimestampFieldNumber

/-- Timestamp extraction of `TokenizeFtraceEvent` (lines 114-127): the fast
path is taken exactly when the record is longer than 10 bytes and its first
byte equals the conventional timestamp tag. -/
def extractTimestamp (data : List Nat) : Option Nat :=
  if 10 < data.length ∧ data.head? = some kTimestampFieldTag then
    fastpathTimestamp data
  else
    slowpathTimestamp data

/-- Modelled from the spec: `BuiltinClock::BUILTIN_CLOCK_BOOTTIME`, the fixed
default canonical clock of the format (proto enum not under `src/`). -/
def BUILTIN_CLOCK_BOOTTIME : Nat := 6

/-- Modelled from the spec: `BuiltinClock::BUILTIN_CLOCK_MONOTONIC`, the fixed
canonical clock used for the "global" ftrace clock (proto enum not under
`src/`). -/
def BUILTIN_CLOCK_MONOTONIC : Nat := 3

/-- The external clock registry (`ClockTracker::ToTraceTime`), abstracted as a
function from clock id and raw ticks to an optional canonical trace time. -/
abbrev ClockTrackerFn : Type := Nat → Int → Option Int

/-- `ResolveTraceTime` (lines 43-51): for the default boot-time clock the raw
timestamp is returned as-is without consulting the external clock tracker;
for every other clock the tracker performs the conversion. -/
def ResolveTraceTime (tracker : ClockTrackerFn) (clock_id : Nat) (ts : Int) :
    Option Int :=
  if clock_id = BUILTIN_CLOCK_BOOTTIME then some ts else tracker clock_id ts

/-- Observable outcome of `TokenizeFtraceEvent`: the number of increments of
the `ftrace_bundle_tokenizer_errors` counter, and the event (if any) pushed
to the sorter as `(cpu, resolved timestamp, event bytes)`. -/
structure EventResult where
  errorCounter : Nat
  pushed : Option (Nat × Int × List Nat)
  deriving Repr, DecidableEq

/-- `TokenizeFtraceEvent` (lines 100-143): extract the raw timestamp (fast or
slow path); a missing timestamp increments the tokenizer-error counter and
drops the event; a failed clock resolution silently drops the event;
otherwise the event is pushed with its resolved timestamp. -/
def TokenizeFtraceEvent (tracker : ClockTrackerFn) (cpu clock_id : Nat)
    (data : List Nat) : EventResult :=
  match extractTimestamp data with
  | none => ⟨1, none⟩
  | some raw =>
    match ResolveTraceTime tracker clock_id (toInt64 raw) with
    | none => ⟨0, none⟩
    | some ts => ⟨0, some (cpu, ts, data)⟩

/-- The bounded-window varint parse of the fast path agrees with the
unbounded parse whenever the window covers every shift the parser can reach:
a varint terminating at shift 63 or earlier lies within `k` bytes when
`64 ≤ shift + 7 * k`. -/
theorem parseVarIntAux_take_fst (l : List Nat) :
    ∀ (k shift acc : Nat), 64 ≤ shift + 7 * k →
      (parseVarIntAux (l.take k) shift acc).map Prod.fst
        = (parseVarIntAux l shift acc).map Prod.fst := by
  induction l with
  | nil => intro k s a _; simp
  | cons b bs ih =>
    intro k s a h
    cases k with
    | zero =>
      have hs : 64 ≤ s := by omega
      simp [parseVarIntAux, hs]
    | succ k =>
      by_cases hs : 64 ≤ s
      · simp [parseVarIntAux, hs]
      · by_cases hb : b % 256 < 128
        · simp [parseVarIntAux, hs, hb]
        · simp only [List.take_succ_cons, parseVarIntAux, if_neg hs, if_neg hb]
          exact ih k (s + 7) _ (by omega)

/-- On a record starting with the conventional timestamp tag byte, the
generic field scan parses that tag and returns the varint value immediately
following it (or fails exactly when that varint is malformed). -/
theorem slowpath_first_field (rest : List Nat) :
    slowpathTimestamp (kTimestampFieldTag :: rest)
      = (parseVarInt rest).map Prod.fst := by
  have h8 : parseVarInt (kTimestampFieldTag :: rest) = some (8, rest) := by
    simp [parseVarInt, parseVarIntAux, kTimestampFieldTag]
  unfold slowpathTimestamp FindField
  simp only [List.length_cons]
  unfold findFieldAux
  rw [h8]
  simp only [kTimestampFieldNumber]
  norm_num
  cases hp : parseVarInt rest with
  | none => simp
  | some p => simp

/-- `InlineSchedSwitch` (from `trace_sorter.h`): the decoded record pushed
for one compact switch row.  String handles are abstract `Nat` ids. -/
structure InlineSchedSwitch where
  prev_state : Int
  next_pid : Int
  next_prio : Int
  next_comm : Nat
  deriving Repr, DecidableEq

/-- `InlineSchedWaking` (from `trace_sorter.h`): the decoded record pushed
for one compact waking row. -/
structure InlineSchedWaking where
  pid : Int
  target_cpu : Int
  prio : Int
  comm : Nat
  deriving Repr, DecidableEq

/-- The five packed columns of the compact switch encoding, as the sequences
their per-column iterators yield, together with the shared parse-error flag
the packed decoders report (`bool parse_error` at line 174, set by any of the
five column decoders). -/
structure SwitchCols where
  timestamp : List Nat
  prev_state : List Int
  next_pid : List Int
  next_prio : List Int
  comm_index : List Nat
  parse_error : Bool
  deriving Repr, DecidableEq

/-- The five packed columns of the compact waking encoding and their shared
parse-error flag (line 221). -/
structure WakingCols where
  timestamp : List Nat
  pid : List Int
  target_cpu : List Int
  prio : List Int
  comm_index : List Nat
  parse_error : Bool
  deriving Repr, DecidableEq

/-- Observable outcome of one compact-scheduling batch decode: the rows
pushed to the sorter (in order, as `(cpu, resolved timestamp, record)`), the
raw accumulated timestamps passed to `ResolveTraceTime` (in order), the
number of increments of the `compact_sched_has_parse_errors` counter,
whether the decoder returned early because a clock resolution failed
(the `return` at lines 198-199 / 246-247), and whether the
`PERFETTO_DCHECK` on a comm index failed (lines 189 / 237), which aborts
defined processing of the batch. -/
structure CompactResult (ev : Type) where
  emitted : List (Nat × Int × ev)
  rawCalls : List Int
  parseErrorCounter : Nat
  clockAbort : Bool
  dcheckFailed : Bool
  deriving Repr, DecidableEq

/-- Prepend one decoded row to the result of the remaining loop iterations. -/
def consRow {ev : Type} (cpu : Nat) (rt : Int) (e : ev) (raw : Int)
    (rest : CompactResult ev) : CompactResult ev :=
  ⟨(cpu, rt, e) :: rest.emitted, raw :: rest.rawCalls,
   rest.parseErrorCounter, rest.clockAbort, rest.dcheckFailed⟩

/-- The lockstep loop of `TokenizeFtraceCompactSchedSwitch` (lines 168-207):
iterate all five columns while none is exhausted; per row, accumulate the
delta timestamp into the signed 64-bit accumulator, check the comm index
against the intern table (`PERFETTO_DCHECK`), look it up, resolve the
accumulated timestamp, and either return early (resolution failed) or push
the row.  After the loop, the counter is incremented once iff a column
reported a parse error or the columns were not simultaneously exhausted. -/
def schedSwitchLoop (tracker : ClockTrackerFn) (clock_id cpu : Nat)
    (table : List Nat) (pe : Bool) :
    Int → List Nat → List Int → List Int → List Int → List Nat →
    CompactResult InlineSchedSwitch
  | acc, t :: ts, p :: ps, n :: ns, r :: rs, m :: ms =>
    if m < table.length then
      match ResolveTraceTime tracker clock_id (wrap64 (acc + toInt64 t)) with
      | none => ⟨[], [wrap64 (acc + toInt64 t)], 0, true, false⟩
      | some rt =>
        consRow cpu rt ⟨p, n, r, table.getD m 0⟩ (wrap64 (acc + toInt64 t))
          (schedSwitchLoop tracker clock_id cpu table pe
            (wrap64 (acc + toInt64 t)) ts ps ns rs ms)
    else ⟨[], [], 0, false, true⟩
  | _, ts, ps, ns, rs, ms =>
    ⟨[], [],
     if pe || !(ts.isEmpty && ps.isEmpty && ns.isEmpty && rs.isEmpty
                && ms.isEmpty) then 1 else 0,
     false, false⟩

/-- `TokenizeFtraceCompactSchedSwitch` (lines 163-208): the accumulator
starts at zero for the batch. -/
def TokenizeFtraceCompactSchedSwitch (tracker : ClockTrackerFn)
    (clock_id cpu : Nat) (table : List Nat) (c : SwitchCols) :
    CompactResult InlineSchedSwitch :=
  schedSwitchLoop tracker clock_id cpu table c.parse_error 0
    c.timestamp c.prev_state c.next_pid c.next_prio c.comm_index

/-- The lockstep loop of `TokenizeFtraceCompactSchedWaking`
(lines 215-255), structurally identical to the switch loop. -/
def schedWakingLoop (tracker : ClockTrackerFn) (clock_id cpu : Nat)
    (table : List Nat) (pe : Bool) :
    Int → List Nat → List Int → List Int → List Int → List Nat →
    CompactResult InlineSchedWaking
  | acc, t :: ts, p :: ps, u :: us, r :: rs, m :: ms =>
    if m < table.length then
      match ResolveTraceTime tracker clock_id (wrap64 (acc + toInt64 t)) with
      | none => ⟨[], [wrap64 (acc + toInt64 t)], 0, true, false⟩
      | some rt =>
        consRow cpu rt ⟨p, u, r, table.getD m 0⟩ (wrap64 (acc + toInt64 t))
          (schedWakingLoop tracker clock_id cpu table pe
            (wrap64 (acc + toInt64 t)) ts ps us rs ms)
    else ⟨[], [], 0, false, true⟩
  | _, ts, ps, us, rs, ms =>
    ⟨[], [],
     if pe || !(ts.isEmpty && ps.isEmpty && us.isEmpty && rs.isEmpty
                && ms.isEmpty) then 1 else 0,
     false, false⟩

/-- `TokenizeFtraceCompactSchedWaking` (lines 210-256): the accumulator
starts at zero for the batch. -/
def TokenizeFtraceCompactSchedWaking (tracker : ClockTrackerFn)
    (clock_id cpu : Nat) (table : List Nat) (c : WakingCols) :
    CompactResult InlineSchedWaking :=
  schedWakingLoop tracker clock_id cpu table c.parse_error 0
    c.timestamp c.pid c.target_cpu c.prio c.comm_index

/-- The decoded compact-scheduling sub-message: the raw interned strings and
the two column sets. -/
structure CompactSched where
  intern_table : List (List Nat)
  switch : SwitchCols
  waking : WakingCols

/-- `TokenizeFtraceCompactSched` (lines 146-161): build the intern table once
per bundle by interning each raw string in declaration order (the string
storage is abstracted as `intern`), then decode the switch batch and the
waking batch, each with its own zero-initialized accumulator. -/
def TokenizeFtraceCompactSched (tracker : ClockTrackerFn)
    (intern : List Nat → Nat) (clock_id cpu : Nat) (c : CompactSched) :
    CompactResult InlineSchedSwitch × CompactResult InlineSchedWaking :=
  (TokenizeFtraceCompactSchedSwitch tracker clock_id cpu
     (c.intern_table.map intern) c.switch,
   TokenizeFtraceCompactSchedWaking tracker clock_id cpu
     (c.intern_table.map intern) c.waking)

/-- The running prefix sums of the delta column, computed in a signed 64-bit
accumulator starting from `acc`. -/
def prefixSums64 (acc : Int) : List Nat → List Int
  | [] => []
  | d :: ds => wrap64 (acc + toInt64 d) :: prefixSums64 (wrap64 (acc + toInt64 d)) ds

/-- Modelled from the spec: the wire clock-domain selector
(`FtraceClock`, proto enum not under `src/`): unspecified, global, local, or
any other unrecognized value. -/
inductive FtraceClock where
  | unspecified
  | global
  | local_clock
  | other
  deriving Repr, DecidableEq

/-- Modelled from the spec: `kMaxCpus`, the fixed maximum supported CPU count
constant (defined in the trace storage headers, not under `src/`). -/
def kMaxCpus : Nat := 128

/-- The clock-domain switch of `TokenizeFtraceBundle` (lines 73-86). -/
def clockIdFor : FtraceClock → Except String Nat
  | .unspecified => .ok BUILTIN_CLOCK_BOOTTIME
  | .global => .ok BUILTIN_CLOCK_MONOTONIC
  | .local_clock => .error "Unable to parse ftrace packets with local clock"
  | .other => .error "Unable to parse ftrace packets with unknown clock"

/-- One decoded `FtraceEventBundle`: the optional CPU field, the clock-domain
selector, the optional compact-scheduling sub-message, and the serialized
event sub-records in declaration order (each an opaque byte blob). -/
structure Bundle where
  cpu : Option Nat
  ftrace_clock : FtraceClock
  compact_sched : Option CompactSched
  event : List (List Nat)

/-- Observable outcome of `TokenizeFtraceBundle`: the returned status, the
per-counter increment totals, and the records pushed to the sorter, each
list in push order. -/
structure BundleResult where
  status : Except String Unit
  tokenizerErrors : Nat
  compactParseErrors : Nat
  pushedEvents : List (Nat × Int × List Nat)
  pushedSwitch : List (Nat × Int × InlineSchedSwitch)
  pushedWaking : List (Nat × Int × InlineSchedWaking)

/-- The empty compact-scheduling outcome (no sub-message present). -/
def emptyCompact {ev : Type} : CompactResult ev := ⟨[], [], 0, false, false⟩

/-- `TokenizeFtraceBundle` (lines 56-97): a missing CPU field increments the
tokenizer-error counter and drops the bundle with success; a CPU strictly
greater than `kMaxCpus` drops the bundle with success and no counter; an
unsupported clock domain is a hard error; otherwise the compact-scheduling
sub-message (when present) is decoded and every event sub-record is
tokenized in declaration order. -/
def TokenizeFtraceBundle (tracker : ClockTrackerFn) (intern : List Nat → Nat)
    (b : Bundle) : BundleResult :=
  match b.cpu with
  | none => ⟨.ok (), 1, 0, [], [], []⟩
  | some cpu =>
    if kMaxCpus < cpu then ⟨.ok (), 0, 0, [], [], []⟩
    else
      match clockIdFor b.ftrace_clock with
      | .error e => ⟨.error e, 0, 0, [], [], []⟩
      | .ok clock_id =>
        match b.compact_sched with
        | none =>
          ⟨.ok (),
           ((b.event.map (TokenizeFtraceEvent tracker cpu clock_id)).map
              EventResult.errorCounter).sum,
           0,
           (b.event.map (TokenizeFtraceEvent tracker cpu clock_id)).filterMap
             EventResult.pushed,
           [], []⟩
        | some c =>
          ⟨.ok (),
           ((b.event.map (TokenizeFtraceEvent tracker cpu clock_id)).map
              EventResult.errorCounter).sum,
           (TokenizeFtraceCompactSched tracker intern clock_id cpu c).1.parseErrorCounter
             + (TokenizeFtraceCompactSched tracker intern clock_id cpu c).2.parseErrorCounter,
           (b.event.map (TokenizeFtraceEvent tracker cpu clock_id)).filterMap
             EventResult.pushed,
           (TokenizeFtraceCompactSched tracker intern clock_id cpu c).1.emitted,
           (TokenizeFtraceCompactSched tracker intern clock_id cpu c).2.emitted⟩

/-- C2: for every event record whose timestamp is encoded as the first field
with the conventional varint field tag, the fast path (tag-byte comparison
plus bounded-length direct varint decode) and the slow path (generic
field-by-field scan for the timestamp field number) extract the identical
raw 64-bit timestamp value. -/
theorem fastpath_slowpath_agree (data : List Nat)
    (hlen : 10 < data.length)
    (htag : data.head? = some kTimestampFieldTag) :
    fastpathTimestamp data = slowpathTimestamp data := by
  cases data with
  | nil => simp at htag
  | cons b rest =>
    have hb : b = kTimestampFieldTag := by simpa using htag
    subst hb
    rw [slowpath_first_field]
    unfold fastpathTimestamp parseVarInt
    simp only [List.drop_succ_cons, List.drop_zero]
    exact parseVarIntAux_take_fst rest 10 0 0 (by norm_num)

/-- Witness for `fastpath_slowpath_agree` at a concrete record. -/
theorem fastpath_slowpath_agree_witness :
    10 < ([8, 5, 0, 0, 0, 0, 0, 0, 0, 0, 0] : List Nat).length ∧
    ([8, 5, 0, 0, 0, 0, 0, 0, 0, 0, 0] : List Nat).head?
        = some kTimestampFieldTag ∧
    fastpathTimestamp [8, 5, 0, 0, 0, 0, 0, 0, 0, 0, 0]
      = slowpathTimestamp [8, 5, 0, 0, 0, 0, 0, 0, 0, 0, 0] :=
  ⟨by decide, by decide, fastpath_slowpath_agree _ (by decide) (by decide)⟩

/-- C10: for every event record longer than 10 bytes whose first byte equals
the timestamp field tag but whose following bytes do not form a decodable
varint within the bounded fast-path window, the event is dropped and the
tokenizer-error counter incremented, without the generic slow-path scan ever
being attempted. -/
theorem fastpath_failure_drops_event (tracker : ClockTrackerFn)
    (cpu clock_id : Nat) (data : List Nat)
    (hlen : 10 < data.length)
    (htag : data.head? = some kTimestampFieldTag)
    (hfail : fastpathTimestamp data = none) :
    (TokenizeFtraceEvent tracker cpu clock_id data).errorCounter = 1 ∧
    (TokenizeFtraceEvent tracker cpu clock_id data).pushed = none := by
  unfold TokenizeFtraceEvent extractTimestamp
  rw [if_pos ⟨hlen, htag⟩, hfail]
  exact ⟨rfl, rfl⟩

/-- Witness for `fastpath_failure_drops_event`: a record of eleven bytes
whose ten window bytes all carry the continuation bit. -/
theorem fastpath_failure_drops_event_witness :
    (TokenizeFtraceEvent (fun _ _ => none) 0 BUILTIN_CLOCK_BOOTTIME
        (8 :: List.replicate 10 128)).errorCounter = 1 ∧
    (TokenizeFtraceEvent (fun _ _ => none) 0 BUILTIN_CLOCK_BOOTTIME
        (8 :: List.replicate 10 128)).pushed = none :=
  fastpath_failure_drops_event _ _ _ _ (by decide) (by decide) (by decide)

/-- A bundle at the boundary CPU value `kMaxCpus`, carrying one well-formed
event record with timestamp 42. -/
def bundleAtMaxCpu : Bundle :=
  ⟨some kMaxCpus, .unspecified, none, [[8, 42]]⟩

/-- C3 (divergence): the guard at line 68 is `cpu > kMaxCpus`, so a bundle
whose CPU field equals `kMaxCpus` is *not* dropped: tokenization returns
success and forwards its event, although `kMaxCpus` is not a valid CPU index
(the spec requires CPU index < maximum supported CPU count). -/
theorem cpu_at_kMaxCpus_not_dropped :
    (TokenizeFtraceBundle (fun _ _ => none) (fun _ => 0) bundleAtMaxCpu).status
        = Except.ok () ∧
    (TokenizeFtraceBundle (fun _ _ => none) (fun _ => 0)
        bundleAtMaxCpu).pushedEvents = [(kMaxCpus, 42, [8, 42])] :=
  ⟨rfl, by decide⟩

/-- The payload pushed by `TokenizeFtraceEvent`, when any, is exactly its
input record, tagged with the given cpu. -/
theorem tokenizeEvent_pushed_shape (tracker : ClockTrackerFn)
    (cpu clock_id : Nat) (data : List Nat) :
    (TokenizeFtraceEvent tracker cpu clock_id data).pushed = none ∨
    ∃ ts, (TokenizeFtraceEvent tracker cpu clock_id data).pushed
            = some (cpu, ts, data) := by
  rcases hx : extractTimestamp data with _ | raw
  · exact Or.inl (by simp [TokenizeFtraceEvent, hx])
  · rcases hr : ResolveTraceTime tracker clock_id (toInt64 raw) with _ | ts
    · exact Or.inl (by simp [TokenizeFtraceEvent, hx, hr])
    · exact Or.inr ⟨ts, by simp [TokenizeFtraceEvent, hx, hr]⟩

/-- The records pushed while tokenizing a list of event sub-records form a
sublist (an order-preserving selection) of that list. -/
theorem filterMap_pushed_sublist (tracker : ClockTrackerFn)
    (cpu clock_id : Nat) (l : List (List Nat)) :
    (((l.map (TokenizeFtraceEvent tracker cpu clock_id)).filterMap
        EventResult.pushed).map (fun e => e.2.2)).Sublist l := by
  induction l with
  | nil => simp
  | cons d ds ih =>
    simp only [List.map_cons, List.filterMap_cons]
    rcases tokenizeEvent_pushed_shape tracker cpu clock_id d with h | ⟨ts, h⟩
    · rw [h]; exact ih.cons d
    · rw [h]; simp only [List.map_cons]; exact ih.cons₂ d

/-- C7: for every bundle, the serialized event sub-records are forwarded to
the sorter in their declaration order within the bundle (dropped events
aside, the forwarded payloads are an order-preserving sublist of the
bundle's event list); the tokenizer performs no reordering. -/
theorem events_forwarded_in_order (tracker : ClockTrackerFn)
    (intern : List Nat → Nat) (b : Bundle) :
    ((TokenizeFtraceBundle tracker intern b).pushedEvents.map
        (fun e => e.2.2)).Sublist b.event := by
  rcases b with ⟨cpu?, clk, cs?, evs⟩
  cases cpu? with
  | none => simp [TokenizeFtraceBundle]
  | some cpu =>
    by_cases h : kMaxCpus < cpu
    · simp [TokenizeFtraceBundle, h]
    · cases hck : clockIdFor clk with
      | error e => simp [TokenizeFtraceBundle, h, hck]
      | ok clock_id =>
        cases cs? with
        | none =>
          simpa [TokenizeFtraceBundle, h, hck] using
            filterMap_pushed_sublist tracker cpu clock_id evs
        | some c =>
          simpa [TokenizeFtraceBundle, h, hck] using
            filterMap_pushed_sublist tracker cpu clock_id evs

/-- The raw timestamps the switch loop passes to clock resolution are the
running prefix sums of the delta column (from the current accumulator), when
the columns pair up, every comm index is in bounds and every resolution
succeeds. -/
theorem schedSwitchLoop_rawCalls (tracker : ClockTrackerFn)
    (clock_id cpu : Nat) (table : List Nat) (pe : Bool)
    (htot : ∀ t, (ResolveTraceTime tracker clock_id t).isSome) :
    ∀ (ts : List Nat) (ps ns rs : List Int) (ms : List Nat) (acc : Int),
      ps.length = ts.length → ns.length = ts.length → rs.length = ts.length →
      ms.length = ts.length → (∀ m ∈ ms, m < table.length) →
      (schedSwitchLoop tracker clock_id cpu table pe acc ts ps ns rs ms).rawCalls
        = prefixSums64 acc ts := by
  intro ts
  induction ts with
  | nil =>
    intro ps ns rs ms acc h1 h2 h3 h4 _
    rw [List.length_nil, List.length_eq_zero] at h1 h2 h3 h4
    subst h1; subst h2; subst h3; subst h4
    simp [schedSwitchLoop, prefixSums64]
  | cons t ts ih =>
    intro ps ns rs ms acc h1 h2 h3 h4 hin
    cases ps with
    | nil => simp at h1
    | cons p ps =>
    cases ns with
    | nil => simp at h2
    | cons n ns =>
    cases rs with
    | nil => simp at h3
    | cons r rs =>
    cases ms with
    | nil => simp at h4
    | cons m ms =>
    have hm : m < table.length := hin m (List.mem_cons_self m ms)
    have hres := htot (wrap64 (acc + toInt64 t))
    cases hr : ResolveTraceTime tracker clock_id (wrap64 (acc + toInt64 t)) with
    | none => rw [hr] at hres; simp at hres
    | some rt =>
      simp only [schedSwitchLoop, if_pos hm, hr, consRow, prefixSums64]
      rw [ih ps ns rs ms _ (by simpa using h1) (by simpa using h2)
        (by simpa using h3) (by simpa using h4)
        (fun x hx => hin x (List.mem_cons_of_mem m hx))]

/-- Waking analogue of `schedSwitchLoop_rawCalls`. -/
theorem schedWakingLoop_rawCalls (tracker : ClockTrackerFn)
    (clock_id cpu : Nat) (table : List Nat) (pe : Bool)
    (htot : ∀ t, (ResolveTraceTime tracker clock_id t).isSome) :
    ∀ (ts : List Nat) (ps us rs : List Int) (ms : List Nat) (acc : Int),
      ps.length = ts.length → us.length = ts.length → rs.length = ts.length →
      ms.length = ts.length → (∀ m ∈ ms, m < table.length) →
      (schedWakingLoop tracker clock_id cpu table pe acc ts ps us rs ms).rawCalls
        = prefixSums64 acc ts := by
  intro ts
  induction ts with
  | nil =>
    intro ps us rs ms acc h1 h2 h3 h4 _
    rw [List.length_nil, List.length_eq_zero] at h1 h2 h3 h4
    subst h1; subst h2; subst h3; subst h4
    simp [schedWakingLoop, prefixSums64]
  | cons t ts ih =>
    intro ps us rs ms acc h1 h2 h3 h4 hin
    cases ps with
    | nil => simp at h1
    | cons p ps =>
    cases us with
    | nil => simp at h2
    | cons u us =>
    cases rs with
    | nil => simp at h3
    | cons r rs =>
    cases ms with
    | nil => simp at h4
    | cons m ms =>
    have hm : m < table.length := hin m (List.mem_cons_self m ms)
    have hres := htot (wrap64 (acc + toInt64 t))
    cases hr : ResolveTraceTime tracker clock_id (wrap64 (acc + toInt64 t)) with
    | none => rw [hr] at hres; simp at hres
    | some rt =>
      simp only [schedWakingLoop, if_pos hm, hr, consRow, prefixSums64]
      rw [ih ps us rs ms _ (by simpa using h1) (by simpa using h2)
        (by simpa using h3) (by simpa using h4)
        (fun x hx => hin x (List.mem_cons_of_mem m hx))]

/-- C1: for every compact-scheduling batch (switch or waking) whose columns
pair up, whose comm indices are in bounds and whose clock resolutions all
succeed, the timestamps passed to clock resolution are the running prefix
sums of the per-row delta values, computed in a signed 64-bit accumulator
initialized to zero at the start of each batch (the switch batch and the
waking batch of one bundle each start from zero; nothing is carried across
batches or bundles). -/
theorem compact_sched_prefix_sums (tracker : ClockTrackerFn)
    (intern : List Nat → Nat) (clock_id cpu : Nat) (c : CompactSched)
    (htot : ∀ t, (ResolveTraceTime tracker clock_id t).isSome)
    (hs1 : c.switch.prev_state.length = c.switch.timestamp.length)
    (hs2 : c.switch.next_pid.length = c.switch.timestamp.length)
    (hs3 : c.switch.next_prio.length = c.switch.timestamp.length)
    (hs4 : c.switch.comm_index.length = c.switch.timestamp.length)
    (hs5 : ∀ m ∈ c.switch.comm_index, m < c.intern_table.length)
    (hw1 : c.waking.pid.length = c.waking.timestamp.length)
    (hw2 : c.waking.target_cpu.length = c.waking.timestamp.length)
    (hw3 : c.waking.prio.length = c.waking.timestamp.length)
    (hw4 : c.waking.comm_index.length = c.waking.timestamp.length)
    (hw5 : ∀ m ∈ c.waking.comm_index, m < c.intern_table.length) :
    (TokenizeFtraceCompactSched tracker intern clock_id cpu c).1.rawCalls
        = prefixSums64 0 c.switch.timestamp ∧
    (TokenizeFtraceCompactSched tracker intern clock_id cpu c).2.rawCalls
        = prefixSums64 0 c.waking.timestamp := by
  constructor
  · exact schedSwitchLoop_rawCalls tracker clock_id cpu
      (c.intern_table.map intern) c.switch.parse_error htot
      c.switch.timestamp c.switch.prev_state c.switch.next_pid
      c.switch.next_prio c.switch.comm_index 0 hs1 hs2 hs3 hs4
      (by simpa using hs5)
  · exact schedWakingLoop_rawCalls tracker clock_id cpu
      (c.intern_table.map intern) c.waking.parse_error htot
      c.waking.timestamp c.waking.pid c.waking.target_cpu
      c.waking.prio c.waking.comm_index 0 hw1 hw2 hw3 hw4
      (by simpa using hw5)

/-- Witness for `compact_sched_prefix_sums`: a two-row switch batch with
deltas `[100, 50]` and a one-row waking batch with delta `[7]`, on the
default clock. -/
theorem compact_sched_prefix_sums_witness :
    (TokenizeFtraceCompactSched (fun _ _ => none) (fun s => s.length)
        BUILTIN_CLOCK_BOOTTIME 1
        ⟨[[119], [66, 66]],
         ⟨[100, 50], [0, 0], [11, 12], [120, 120], [0, 1], false⟩,
         ⟨[7], [21], [2], [97], [1], false⟩⟩).1.rawCalls = [100, 150] ∧
    (TokenizeFtraceCompactSched (fun _ _ => none) (fun s => s.length)
        BUILTIN_CLOCK_BOOTTIME 1
        ⟨[[119], [66, 66]],
         ⟨[100, 50], [0, 0], [11, 12], [120, 120], [0, 1], false⟩,
         ⟨[7], [21], [2], [97], [1], false⟩⟩).2.rawCalls = [7] := by
  have h := compact_sched_prefix_sums (fun _ _ => none) (fun s => s.length)
    BUILTIN_CLOCK_BOOTTIME 1
    ⟨[[119], [66, 66]],
     ⟨[100, 50], [0, 0], [11, 12], [120, 120], [0, 1], false⟩,
     ⟨[7], [21], [2], [97], [1], false⟩⟩
    (fun t => by simp [ResolveTraceTime])
    rfl rfl rfl rfl (by decide) rfl rfl rfl rfl (by decide)
  refine ⟨h.1.trans ?_, h.2.trans ?_⟩ <;> decide

/-- The comm handles of the rows the switch loop emits are exactly the
intern-table entries at a prefix of the comm-index column, and every index in
that prefix was checked to be strictly below the table length before the
lookup. -/
theorem schedSwitchLoop_comm (tracker : ClockTrackerFn) (clock_id cpu : Nat)
    (table : List Nat) (pe : Bool) :
    ∀ (ts : List Nat) (ps ns rs : List Int) (ms : List Nat) (acc : Int),
      ∃ k,
        ((schedSwitchLoop tracker clock_id cpu table pe
            acc ts ps ns rs ms).emitted.map (fun e => e.2.2.next_comm))
          = (ms.take k).map (fun m => table.getD m 0) ∧
        ∀ m ∈ ms.take k, m < table.length := by
  intro ts
  induction ts with
  | nil =>
    intro ps ns rs ms acc
    exact ⟨0, by simp [schedSwitchLoop], by simp⟩
  | cons t ts ih =>
    intro ps ns rs ms acc
    cases ps with
    | nil => exact ⟨0, by simp [schedSwitchLoop], by simp⟩
    | cons p ps =>
    cases ns with
    | nil => exact ⟨0, by simp [schedSwitchLoop], by simp⟩
    | cons n ns =>
    cases rs with
    | nil => exact ⟨0, by simp [schedSwitchLoop], by simp⟩
    | cons r rs =>
    cases ms with
    | nil => exact ⟨0, by simp [schedSwitchLoop], by simp⟩
    | cons m ms =>
    by_cases hm : m < table.length
    · cases hr : ResolveTraceTime tracker clock_id (wrap64 (acc + toInt64 t)) with
      | none =>
        refine ⟨0, ?_, by simp⟩
        simp [schedSwitchLoop, if_pos hm, hr]
      | some rt =>
        obtain ⟨k, hmap, hbound⟩ := ih ps ns rs ms (wrap64 (acc + toInt64 t))
        refine ⟨k + 1, ?_, ?_⟩
        · simp only [schedSwitchLoop, if_pos hm, hr, consRow, List.map_cons,
            List.take_succ_cons, hmap]
        · intro x hx
          rcases List.mem_cons.mp (by simpa using hx) with hx0 | hx1
          · exact hx0 ▸ hm
          · exact hbound x hx1
    · refine ⟨0, ?_, by simp⟩
      simp [schedSwitchLoop, if_neg hm]

/-- Waking analogue of `schedSwitchLoop_comm`. -/
theorem schedWakingLoop_comm (tracker : ClockTrackerFn) (clock_id cpu : Nat)
    (table : List Nat) (pe : Bool) :
    ∀ (ts : List Nat) (ps us rs : List Int) (ms : List Nat) (acc : Int),
      ∃ k,
        ((schedWakingLoop tracker clock_id cpu table pe
            acc ts ps us rs ms).emitted.map (fun e => e.2.2.comm))
          = (ms.take k).map (fun m => table.getD m 0) ∧
        ∀ m ∈ ms.take k, m < table.length := by
  intro ts
  induction ts with
  | nil =>
    intro ps us rs ms acc
    exact ⟨0, by simp [schedWakingLoop], by simp⟩
  | cons t ts ih =>
    intro ps us rs ms acc
    cases ps with
    | nil => exact ⟨0, by simp [schedWakingLoop], by simp⟩
    | cons p ps =>
    cases us with
    | nil => exact ⟨0, by simp [schedWakingLoop], by simp⟩
    | cons u us =>
    cases rs with
    | nil => exact ⟨0, by simp [schedWakingLoop], by simp⟩
    | cons r rs =>
    cases ms with
    | nil => exact ⟨0, by simp [schedWakingLoop], by simp⟩
    | cons m ms =>
    by_cases hm : m < table.length
    · cases hr : ResolveTraceTime tracker clock_id (wrap64 (acc + toInt64 t)) with
      | none =>
        refine ⟨0, ?_, by simp⟩
        simp [schedWakingLoop, if_pos hm, hr]
      | some rt =>
        obtain ⟨k, hmap, hbound⟩ := ih ps us rs ms (wrap64 (acc + toInt64 t))
        refine ⟨k + 1, ?_, ?_⟩
        · simp only [schedWakingLoop, if_pos hm, hr, consRow, List.map_cons,
            List.take_succ_cons, hmap]
        · intro x hx
          rcases List.mem_cons.mp (by simpa using hx) with hx0 | hx1
          · exact hx0 ▸ hm
          · exact hbound x hx1
    · refine ⟨0, ?_, by simp⟩
      simp [schedWakingLoop, if_neg hm]

/-- C5: for every decoded compact-scheduling row (switch and waking), the
command string handle placed in the emitted record equals the intern-table
entry at that row's comm-index, and that index was validated to be strictly
less than the intern table's length before the lookup, so no out-of-bounds
entry is ever placed in an emitted record. -/
theorem compact_sched_comm_from_intern_table (tracker : ClockTrackerFn)
    (intern : List Nat → Nat) (clock_id cpu : Nat) (c : CompactSched) :
    (∃ k,
      ((TokenizeFtraceCompactSched tracker intern clock_id cpu
          c).1.emitted.map (fun e => e.2.2.next_comm))
        = (c.switch.comm_index.take k).map
            (fun m => (c.intern_table.map intern).getD m 0) ∧
      ∀ m ∈ c.switch.comm_index.take k, m < c.intern_table.length) ∧
    (∃ k,
      ((TokenizeFtraceCompactSched tracker intern clock_id cpu
          c).2.emitted.map (fun e => e.2.2.comm))
        = (c.waking.comm_index.take k).map
            (fun m => (c.intern_table.map intern).getD m 0) ∧
      ∀ m ∈ c.waking.comm_index.take k, m < c.intern_table.length) := by
  constructor
  · obtain ⟨k, hmap, hbound⟩ := schedSwitchLoop_comm tracker clock_id cpu
      (c.intern_table.map intern) c.switch.parse_error c.switch.timestamp
      c.switch.prev_state c.switch.next_pid c.switch.next_prio
      c.switch.comm_index 0
    exact ⟨k, hmap, fun m hm => by simpa using hbound m hm⟩
  · obtain ⟨k, hmap, hbound⟩ := schedWakingLoop_comm tracker clock_id cpu
      (c.intern_table.map intern) c.waking.parse_error c.waking.timestamp
      c.waking.pid c.waking.target_cpu c.waking.prio
      c.waking.comm_index 0
    exact ⟨k, hmap, fun m hm => by simpa using hbound m hm⟩

/-- When every clock resolution succeeds and every comm index is in bounds,
the switch loop emits exactly one row per lockstep step, i.e. as many rows as
the shortest column has elements. -/
theorem schedSwitchLoop_emitted_length (tracker : ClockTrackerFn)
    (clock_id cpu : Nat) (table : List Nat) (pe : Bool)
    (htot : ∀ t, (ResolveTraceTime tracker clock_id t).isSome) :
    ∀ (ts : List Nat) (ps ns rs : List Int) (ms : List Nat) (acc : Int),
      (∀ m ∈ ms, m < table.length) →
      (schedSwitchLoop tracker clock_id cpu table pe
          acc ts ps ns rs ms).emitted.length
        = min ts.length (min ps.length (min ns.length
            (min rs.length ms.length))) := by
  intro ts
  induction ts with
  | nil => intro ps ns rs ms acc _; simp [schedSwitchLoop]
  | cons t ts ih =>
    intro ps ns rs ms acc hin
    cases ps with
    | nil => simp [schedSwitchLoop]
    | cons p ps =>
    cases ns with
    | nil => simp [schedSwitchLoop]
    | cons n ns =>
    cases rs with
    | nil => simp [schedSwitchLoop]
    | cons r rs =>
    cases ms with
    | nil => simp [schedSwitchLoop]
    | cons m ms =>
    have hm : m < table.length := hin m (List.mem_cons_self m ms)
    have hres := htot (wrap64 (acc + toInt64 t))
    cases hr : ResolveTraceTime tracker clock_id (wrap64 (acc + toInt64 t)) with
    | none => rw [hr] at hres; simp at hres
    | some rt =>
      have htail := ih ps ns rs ms (wrap64 (acc + toInt64 t))
        (fun x hx => hin x (List.mem_cons_of_mem m hx))
      simp only [schedSwitchLoop, if_pos hm, hr, consRow, List.length_cons,
        htail]
      omega

/-- When every clock resolution succeeds and every comm index is in bounds,
the switch loop increments the parse-error counter (exactly once) whenever a
column reported a packed-decode error or the columns do not all have the same
number of elements. -/
theorem schedSwitchLoop_counter_one (tracker : ClockTrackerFn)
    (clock_id cpu : Nat) (table : List Nat) (pe : Bool)
    (htot : ∀ t, (ResolveTraceTime tracker clock_id t).isSome) :
    ∀ (ts : List Nat) (ps ns rs : List Int) (ms : List Nat) (acc : Int),
      (∀ m ∈ ms, m < table.length) →
      (pe = true ∨ ¬(ts.length = ps.length ∧ ts.length = ns.length ∧
          ts.length = rs.length ∧ ts.length = ms.length)) →
      (schedSwitchLoop tracker clock_id cpu table pe
          acc ts ps ns rs ms).parseErrorCounter = 1 := by
  intro ts
  induction ts with
  | nil =>
    intro ps ns rs ms acc _ hbad
    rcases hbad with hpe | hne
    · simp [schedSwitchLoop, hpe]
    · simp only [List.length_nil] at hne
      rw [not_and_or, not_and_or, not_and_or] at hne
      rcases hne with h | h | h | h
      · cases ps with
        | nil => simp at h
        | cons p ps => simp [schedSwitchLoop]
      · cases ns with
        | nil => simp at h
        | cons n ns => simp [schedSwitchLoop]
      · cases rs with
        | nil => simp at h
        | cons r rs => simp [schedSwitchLoop]
      · cases ms with
        | nil => simp at h
        | cons m ms => simp [schedSwitchLoop]
  | cons t ts ih =>
    intro ps ns rs ms acc hin hbad
    cases ps with
    | nil => simp [schedSwitchLoop]
    | cons p ps =>
    cases ns with
    | nil => simp [schedSwitchLoop]
    | cons n ns =>
    cases rs with
    | nil => simp [schedSwitchLoop]
    | cons r rs =>
    cases ms with
    | nil => simp [schedSwitchLoop]
    | cons m ms =>
    have hm : m < table.length := hin m (List.mem_cons_self m ms)
    have hres := htot (wrap64 (acc + toInt64 t))
    cases hr : ResolveTraceTime tracker clock_id (wrap64 (acc + toInt64 t)) with
    | none => rw [hr] at hres; simp at hres
    | some rt =>
      simp only [schedSwitchLoop, if_pos hm, hr, consRow]
      apply ih ps ns rs ms _ (fun x hx => hin x (List.mem_cons_of_mem m hx))
      rcases hbad with hpe | hne
      · exact Or.inl hpe
      · right
        rintro ⟨e1, e2, e3, e4⟩
        exact hne (by simp only [List.length_cons]; omega)

/-- Waking analogue of `schedSwitchLoop_emitted_length`. -/
theorem schedWakingLoop_emitted_length (tracker : ClockTrackerFn)
    (clock_id cpu : Nat) (table : List Nat) (pe : Bool)
    (htot : ∀ t, (ResolveTraceTime tracker clock_id t).isSome) :
    ∀ (ts : List Nat) (ps us rs : List Int) (ms : List Nat) (acc : Int),
      (∀ m ∈ ms, m < table.length) →
      (schedWakingLoop tracker clock_id cpu table pe
          acc ts ps us rs ms).emitted.length
        = min ts.length (min ps.length (min us.length
            (min rs.length ms.length))) := by
  intro ts
  induction ts with
  | nil => intro ps us rs ms acc _; simp [schedWakingLoop]
  | cons t ts ih =>
    intro ps us rs ms acc hin
    cases ps with
    | nil => simp [schedWakingLoop]
    | cons p ps =>
    cases us with
    | nil => simp [schedWakingLoop]
    | cons u us =>
    cases rs with
    | nil => simp [schedWakingLoop]
    | cons r rs =>
    cases ms with
    | nil => simp [schedWakingLoop]
    | cons m ms =>
    have hm : m < table.length := hin m (List.mem_cons_self m ms)
    have hres := htot (wrap64 (acc + toInt64 t))
    cases hr : ResolveTraceTime tracker clock_id (wrap64 (acc + toInt64 t)) with
    | none => rw [hr] at hres; simp at hres
    | some rt =>
      have htail := ih ps us rs ms (wrap64 (acc + toInt64 t))
        (fun x hx => hin x (List.mem_cons_of_mem m hx))
      simp only [schedWakingLoop, if_pos hm, hr, consRow, List.length_cons,
        htail]
      omega

/-- Waking analogue of `schedSwitchLoop_counter_one`. -/
theorem schedWakingLoop_counter_one (tracker : ClockTrackerFn)
    (clock_id cpu : Nat) (table : List Nat) (pe : Bool)
    (htot : ∀ t, (ResolveTraceTime tracker clock_id t).isSome) :
    ∀ (ts : List Nat) (ps us rs : List Int) (ms : List Nat) (acc : Int),
      (∀ m ∈ ms, m < table.length) →
      (pe = true ∨ ¬(ts.length = ps.length ∧ ts.length = us.length ∧
          ts.length = rs.length ∧ ts.length = ms.length)) →
      (schedWakingLoop tracker clock_id cpu table pe
          acc ts ps us rs ms).parseErrorCounter = 1 := by
  intro ts
  induction ts with
  | nil =>
    intro ps us rs ms acc _ hbad
    rcases hbad with hpe | hne
    · simp [schedWakingLoop, hpe]
    · simp only [List.length_nil] at hne
      rw [not_and_or, not_and_or, not_and_or] at hne
      rcases hne with h | h | h | h
      · cases ps with
        | nil => simp at h
        | cons p ps => simp [schedWakingLoop]
      · cases us with
        | nil => simp at h
        | cons u us => simp [schedWakingLoop]
      · cases rs with
        | nil => simp at h
        | cons r rs => simp [schedWakingLoop]
      · cases ms with
        | nil => simp at h
        | cons m ms => simp [schedWakingLoop]
  | cons t ts ih =>
    intro ps us rs ms acc hin hbad
    cases ps with
    | nil => simp [schedWakingLoop]
    | cons p ps =>
    cases us with
    | nil => simp [schedWakingLoop]
    | cons u us =>
    cases rs with
    | nil => simp [schedWakingLoop]
    | cons r rs =>
    cases ms with
    | nil => simp [schedWakingLoop]
    | cons m ms =>
    have hm : m < table.length := hin m (List.mem_cons_self m ms)
    have hres := htot (wrap64 (acc + toInt64 t))
    cases hr : ResolveTraceTime tracker clock_id (wrap64 (acc + toInt64 t)) with
    | none => rw [hr] at hres; simp at hres
    | some rt =>
      simp only [schedWakingLoop, if_pos hm, hr, consRow]
      apply ih ps us rs ms _ (fun x hx => hin x (List.mem_cons_of_mem m hx))
      rcases hbad with hpe | hne
      · exact Or.inl hpe
      · right
        rintro ⟨e1, e2, e3, e4⟩
        exact hne (by simp only [List.length_cons]; omega)

/-- C6: for every compact-scheduling batch (switch or waking) in which the
column iterators are not all simultaneously exhausted when lockstep iteration
stops, or in which a column reported a packed-decode parse error, exactly one
parse-error counter increment is recorded for the whole batch, and the rows
emitted before the shortest column ran out remain forwarded: the batch emits
exactly as many rows as the shortest column has elements, then the single
counter increment, and nothing further.  (Comm indices in bounds and clock
resolutions succeeding, so that no earlier abort interferes.) -/
theorem compact_sched_mismatch_counter (tracker : ClockTrackerFn)
    (intern : List Nat → Nat) (clock_id cpu : Nat) (c : CompactSched)
    (htot : ∀ t, (ResolveTraceTime tracker clock_id t).isSome)
    (hs : ∀ m ∈ c.switch.comm_index, m < c.intern_table.length)
    (hw : ∀ m ∈ c.waking.comm_index, m < c.intern_table.length) :
    ((c.switch.parse_error = true ∨
        ¬(c.switch.timestamp.length = c.switch.prev_state.length ∧
          c.switch.timestamp.length = c.switch.next_pid.length ∧
          c.switch.timestamp.length = c.switch.next_prio.length ∧
          c.switch.timestamp.length = c.switch.comm_index.length)) →
      (TokenizeFtraceCompactSched tracker intern clock_id cpu
          c).1.parseErrorCounter = 1) ∧
    (TokenizeFtraceCompactSched tracker intern clock_id cpu
        c).1.emitted.length
      = min c.switch.timestamp.length (min c.switch.prev_state.length
          (min c.switch.next_pid.length (min c.switch.next_prio.length
            c.switch.comm_index.length))) ∧
    ((c.waking.parse_error = true ∨
        ¬(c.waking.timestamp.length = c.waking.pid.length ∧
          c.waking.timestamp.length = c.waking.target_cpu.length ∧
          c.waking.timestamp.length = c.waking.prio.length ∧
          c.waking.timestamp.length = c.waking.comm_index.length)) →
      (TokenizeFtraceCompactSched tracker intern clock_id cpu
          c).2.parseErrorCounter = 1) ∧
    (TokenizeFtraceCompactSched tracker intern clock_id cpu
        c).2.emitted.length
      = min c.waking.timestamp.length (min c.waking.pid.length
          (min c.waking.target_cpu.length (min c.waking.prio.length
            c.waking.comm_index.length))) := by
  refine ⟨fun hbad => ?_, ?_, fun hbad => ?_, ?_⟩
  · exact schedSwitchLoop_counter_one tracker clock_id cpu
      (c.intern_table.map intern) c.switch.parse_error htot
      c.switch.timestamp c.switch.prev_state c.switch.next_pid
      c.switch.next_prio c.switch.comm_index 0 (by simpa using hs) hbad
  · exact schedSwitchLoop_emitted_length tracker clock_id cpu
      (c.intern_table.map intern) c.switch.parse_error htot
      c.switch.timestamp c.switch.prev_state c.switch.next_pid
      c.switch.next_prio c.switch.comm_index 0 (by simpa using hs)
  · exact schedWakingLoop_counter_one tracker clock_id cpu
      (c.intern_table.map intern) c.waking.parse_error htot
      c.waking.timestamp c.waking.pid c.waking.target_cpu
      c.waking.prio c.waking.comm_index 0 (by simpa using hw) hbad
  · exact schedWakingLoop_emitted_length tracker clock_id cpu
      (c.intern_table.map intern) c.waking.parse_error htot
      c.waking.timestamp c.waking.pid c.waking.target_cpu
      c.waking.prio c.waking.comm_index 0 (by simpa using hw)

/-- Witness for `compact_sched_mismatch_counter`: the spec's column-count
mismatch scenario, switch columns of lengths `[3, 3, 3, 3, 2]`: exactly 2
rows are emitted and the counter is incremented exactly once.  The waking
batch has a packed-decode parse error with matching lengths. -/
theorem compact_sched_mismatch_counter_witness :
    (TokenizeFtraceCompactSched (fun _ _ => none) (fun s => s.length)
        BUILTIN_CLOCK_BOOTTIME 0
        ⟨[[120]],
         ⟨[1, 2, 3], [0, 0, 0], [1, 2, 3], [9, 9, 9], [0, 0], false⟩,
         ⟨[4], [5], [0], [6], [0], true⟩⟩).1.parseErrorCounter = 1 ∧
    (TokenizeFtraceCompactSched (fun _ _ => none) (fun s => s.length)
        BUILTIN_CLOCK_BOOTTIME 0
        ⟨[[120]],
         ⟨[1, 2, 3], [0, 0, 0], [1, 2, 3], [9, 9, 9], [0, 0], false⟩,
         ⟨[4], [5], [0], [6], [0], true⟩⟩).1.emitted.length = 2 ∧
    (TokenizeFtraceCompactSched (fun _ _ => none) (fun s => s.length)
        BUILTIN_CLOCK_BOOTTIME 0
        ⟨[[120]],
         ⟨[1, 2, 3], [0, 0, 0], [1, 2, 3], [9, 9, 9], [0, 0], false⟩,
         ⟨[4], [5], [0], [6], [0], true⟩⟩).2.parseErrorCounter = 1 := by
  have h := compact_sched_mismatch_counter (fun _ _ => none)
    (fun s => s.length) BUILTIN_CLOCK_BOOTTIME 0
    ⟨[[120]],
     ⟨[1, 2, 3], [0, 0, 0], [1, 2, 3], [9, 9, 9], [0, 0], false⟩,
     ⟨[4], [5], [0], [6], [0], true⟩⟩
    (fun t => by simp [ResolveTraceTime]) (by decide) (by decide)
  exact ⟨h.1 (by right; decide), h.2.1.trans (by decide),
    h.2.2.1 (Or.inl rfl)⟩

/-- The prefix-sum list has one entry per delta. -/
theorem prefixSums64_length (acc : Int) (ts : List Nat) :
    (prefixSums64 acc ts).length = ts.length := by
  induction ts generalizing acc with
  | nil => simp [prefixSums64]
  | cons t ts ih => simp [prefixSums64, ih]

/-- If the first `k` clock resolutions of a switch batch succeed and the
resolution of row `k`'s accumulated timestamp fails (row `k` being a row the
lockstep loop reaches), the loop emits exactly the `k` rows before the
failing row, stops as an early return, and in particular never reaches the
post-loop exhaustion check: the parse-error counter stays at zero. -/
theorem schedSwitchLoop_clock_abort (tracker : ClockTrackerFn)
    (clock_id cpu : Nat) (table : List Nat) (pe : Bool) :
    ∀ (k : Nat) (ts : List Nat) (ps ns rs : List Int) (ms : List Nat)
      (acc : Int) (w : Int),
      (∀ m ∈ ms, m < table.length) →
      k < min ts.length (min ps.length (min ns.length
            (min rs.length ms.length))) →
      (∀ j, j < k → ∀ v, (prefixSums64 acc ts)[j]? = some v →
          (ResolveTraceTime tracker clock_id v).isSome) →
      (prefixSums64 acc ts)[k]? = some w →
      ResolveTraceTime tracker clock_id w = none →
      (schedSwitchLoop tracker clock_id cpu table pe
          acc ts ps ns rs ms).emitted.length = k ∧
      (schedSwitchLoop tracker clock_id cpu table pe
          acc ts ps ns rs ms).clockAbort = true ∧
      (schedSwitchLoop tracker clock_id cpu table pe
          acc ts ps ns rs ms).parseErrorCounter = 0 := by
  intro k
  induction k with
  | zero =>
    intro ts ps ns rs ms acc w hin hmin hsucc hw hfail
    cases ts with
    | nil => simp at hmin
    | cons t ts =>
    cases ps with
    | nil => simp at hmin
    | cons p ps =>
    cases ns with
    | nil => simp at hmin
    | cons n ns =>
    cases rs with
    | nil => simp at hmin
    | cons r rs =>
    cases ms with
    | nil => simp at hmin
    | cons m ms =>
    have hm : m < table.length := hin m (List.mem_cons_self m ms)
    have hw0 : w = wrap64 (acc + toInt64 t) := by
      simpa [prefixSums64] using hw.symm
    rw [hw0] at hfail
    refine ⟨?_, ?_, ?_⟩ <;> simp [schedSwitchLoop, if_pos hm, hfail]
  | succ k ih =>
    intro ts ps ns rs ms acc w hin hmin hsucc hw hfail
    cases ts with
    | nil => simp at hmin
    | cons t ts =>
    cases ps with
    | nil => simp at hmin
    | cons p ps =>
    cases ns with
    | nil => simp at hmin
    | cons n ns =>
    cases rs with
    | nil => simp at hmin
    | cons r rs =>
    cases ms with
    | nil => simp at hmin
    | cons m ms =>
    have hm : m < table.length := hin m (List.mem_cons_self m ms)
    have hhead : (ResolveTraceTime tracker clock_id
        (wrap64 (acc + toInt64 t))).isSome := by
      refine hsucc 0 (Nat.succ_pos k) (wrap64 (acc + toInt64 t)) ?_
      simp [prefixSums64]
    obtain ⟨rt, hr⟩ := Option.isSome_iff_exists.mp hhead
    have htail := ih ts ps ns rs ms (wrap64 (acc + toInt64 t)) w
      (fun x hx => hin x (List.mem_cons_of_mem m hx))
      (by simp only [List.length_cons] at hmin; omega)
      (fun j hj v hv => hsucc (j + 1) (by omega) v
        (by simpa [prefixSums64] using hv))
      (by simpa [prefixSums64] using hw)
      hfail
    simp only [schedSwitchLoop, if_pos hm, hr, consRow, List.length_cons]
    exact ⟨by rw [htail.1], htail.2.1, htail.2.2⟩

/-- Waking analogue of `schedSwitchLoop_clock_abort`. -/
theorem schedWakingLoop_clock_abort (tracker : ClockTrackerFn)
    (clock_id cpu : Nat) (table : List Nat) (pe : Bool) :
    ∀ (k : Nat) (ts : List Nat) (ps us rs : List Int) (ms : List Nat)
      (acc : Int) (w : Int),
      (∀ m ∈ ms, m < table.length) →
      k < min ts.length (min ps.length (min us.length
            (min rs.length ms.length))) →
      (∀ j, j < k → ∀ v, (prefixSums64 acc ts)[j]? = some v →
          (ResolveTraceTime tracker clock_id v).isSome) →
      (prefixSums64 acc ts)[k]? = some w →
      ResolveTraceTime tracker clock_id w = none →
      (schedWakingLoop tracker clock_id cpu table pe
          acc ts ps us rs ms).emitted.length = k ∧
      (schedWakingLoop tracker clock_id cpu table pe
          acc ts ps us rs ms).clockAbort = true ∧
      (schedWakingLoop tracker clock_id cpu table pe
          acc ts ps us rs ms).parseErrorCounter = 0 := by
  intro k
  induction k with
  | zero =>
    intro ts ps us rs ms acc w hin hmin hsucc hw hfail
    cases ts with
    | nil => simp at hmin
    | cons t ts =>
    cases ps with
    | nil => simp at hmin
    | cons p ps =>
    cases us with
    | nil => simp at hmin
    | cons u us =>
    cases rs with
    | nil => simp at hmin
    | cons r rs =>
    cases ms with
    | nil => simp at hmin
    | cons m ms =>
    have hm : m < table.length := hin m (List.mem_cons_self m ms)
    have hw0 : w = wrap64 (acc + toInt64 t) := by
      simpa [prefixSums64] using hw.symm
    rw [hw0] at hfail
    refine ⟨?_, ?_, ?_⟩ <;> simp [schedWakingLoop, if_pos hm, hfail]
  | succ k ih =>
    intro ts ps us rs ms acc w hin hmin hsucc hw hfail
    cases ts with
    | nil => simp at hmin
    | cons t ts =>
    cases ps with
    | nil => simp at hmin
    | cons p ps =>
    cases us with
    | nil => simp at hmin
    | cons u us =>
    cases rs with
    | nil => simp at hmin
    | cons r rs =>
    cases ms with
    | nil => simp at hmin
    | cons m ms =>
    have hm : m < table.length := hin m (List.mem_cons_self m ms)
    have hhead : (ResolveTraceTime tracker clock_id
        (wrap64 (acc + toInt64 t))).isSome := by
      refine hsucc 0 (Nat.succ_pos k) (wrap64 (acc + toInt64 t)) ?_
      simp [prefixSums64]
    obtain ⟨rt, hr⟩ := Option.isSome_iff_exists.mp hhead
    have htail := ih ts ps us rs ms (wrap64 (acc + toInt64 t)) w
      (fun x hx => hin x (List.mem_cons_of_mem m hx))
      (by simp only [List.length_cons] at hmin; omega)
      (fun j hj v hv => hsucc (j + 1) (by omega) v
        (by simpa [prefixSums64] using hv))
      (by simpa [prefixSums64] using hw)
      hfail
    simp only [schedWakingLoop, if_pos hm, hr, consRow, List.length_cons]
    exact ⟨by rw [htail.1], htail.2.1, htail.2.2⟩

/-- C8: in compact-scheduling decoding (switch and waking), if clock
resolution of a reached row's accumulated timestamp fails, the decoder stops
processing the remainder of the batch: exactly the rows strictly before the
failing row are forwarded, and none at or after it. -/
theorem compact_sched_clock_failure_stops_batch (tracker : ClockTrackerFn)
    (intern : List Nat → Nat) (clock_id cpu : Nat) (c : CompactSched)
    (hs : ∀ m ∈ c.switch.comm_index, m < c.intern_table.length)
    (hw : ∀ m ∈ c.waking.comm_index, m < c.intern_table.length) :
    (∀ k w,
      k < min c.switch.timestamp.length (min c.switch.prev_state.length
            (min c.switch.next_pid.length (min c.switch.next_prio.length
              c.switch.comm_index.length))) →
      (∀ j, j < k → ∀ v, (prefixSums64 0 c.switch.timestamp)[j]? = some v →
          (ResolveTraceTime tracker clock_id v).isSome) →
      (prefixSums64 0 c.switch.timestamp)[k]? = some w →
      ResolveTraceTime tracker clock_id w = none →
      (TokenizeFtraceCompactSched tracker intern clock_id cpu
          c).1.emitted.length = k ∧
      (TokenizeFtraceCompactSched tracker intern clock_id cpu
          c).1.clockAbort = true) ∧
    (∀ k w,
      k < min c.waking.timestamp.length (min c.waking.pid.length
            (min c.waking.target_cpu.length (min c.waking.prio.length
              c.waking.comm_index.length))) →
      (∀ j, j < k → ∀ v, (prefixSums64 0 c.waking.timestamp)[j]? = some v →
          (ResolveTraceTime tracker clock_id v).isSome) →
      (prefixSums64 0 c.waking.timestamp)[k]? = some w →
      ResolveTraceTime tracker clock_id w = none →
      (TokenizeFtraceCompactSched tracker intern clock_id cpu
          c).2.emitted.length = k ∧
      (TokenizeFtraceCompactSched tracker intern clock_id cpu
          c).2.clockAbort = true) := by
  constructor
  · intro k w hmin hsucc hwk hfail
    have h := schedSwitchLoop_clock_abort tracker clock_id cpu
      (c.intern_table.map intern) c.switch.parse_error k
      c.switch.timestamp c.switch.prev_state c.switch.next_pid
      c.switch.next_prio c.switch.comm_index 0 w
      (by simpa using hs) hmin hsucc hwk hfail
    exact ⟨h.1, h.2.1⟩
  · intro k w hmin hsucc hwk hfail
    have h := schedWakingLoop_clock_abort tracker clock_id cpu
      (c.intern_table.map intern) c.waking.parse_error k
      c.waking.timestamp c.waking.pid c.waking.target_cpu
      c.waking.prio c.waking.comm_index 0 w
      (by simpa using hw) hmin hsucc hwk hfail
    exact ⟨h.1, h.2.1⟩

/-- C9: if clock resolution fails for a reached row of a compact-scheduling
batch, the decoder returns before the post-loop exhaustion and parse-error
check, so no parse-error counter increment is recorded for that batch — even
when the batch has a column-length mismatch or a packed-column parse error
(the columns of `c` are unconstrained and its `parse_error` flag is
arbitrary). -/
theorem compact_sched_clock_failure_skips_counter (tracker : ClockTrackerFn)
    (intern : List Nat → Nat) (clock_id cpu : Nat) (c : CompactSched)
    (hs : ∀ m ∈ c.switch.comm_index, m < c.intern_table.length)
    (hw : ∀ m ∈ c.waking.comm_index, m < c.intern_table.length) :
    (∀ k w,
      k < min c.switch.timestamp.length (min c.switch.prev_state.length
            (min c.switch.next_pid.length (min c.switch.next_prio.length
              c.switch.comm_index.length))) →
      (∀ j, j < k → ∀ v, (prefixSums64 0 c.switch.timestamp)[j]? = some v →
          (ResolveTraceTime tracker clock_id v).isSome) →
      (prefixSums64 0 c.switch.timestamp)[k]? = some w →
      ResolveTraceTime tracker clock_id w = none →
      (TokenizeFtraceCompactSched tracker intern clock_id cpu
          c).1.parseErrorCounter = 0) ∧
    (∀ k w,
      k < min c.waking.timestamp.length (min c.waking.pid.length
            (min c.waking.target_cpu.length (min c.waking.prio.length
              c.waking.comm_index.length))) →
      (∀ j, j < k → ∀ v, (prefixSums64 0 c.waking.timestamp)[j]? = some v →
          (ResolveTraceTime tracker clock_id v).isSome) →
      (prefixSums64 0 c.waking.timestamp)[k]? = some w →
      ResolveTraceTime tracker clock_id w = none →
      (TokenizeFtraceCompactSched tracker intern clock_id cpu
          c).2.parseErrorCounter = 0) := by
  constructor
  · intro k w hmin hsucc hwk hfail
    exact (schedSwitchLoop_clock_abort tracker clock_id cpu
      (c.intern_table.map intern) c.switch.parse_error k
      c.switch.timestamp c.switch.prev_state c.switch.next_pid
      c.switch.next_prio c.switch.comm_index 0 w
      (by simpa using hs) hmin hsucc hwk hfail).2.2
  · intro k w hmin hsucc hwk hfail
    exact (schedWakingLoop_clock_abort tracker clock_id cpu
      (c.intern_table.map intern) c.waking.parse_error k
      c.waking.timestamp c.waking.pid c.waking.target_cpu
      c.waking.prio c.waking.comm_index 0 w
      (by simpa using hw) hmin hsucc hwk hfail).2.2

/-- A clock tracker that fails to resolve the raw value 3 and resolves every
other value as-is. -/
def failAt3 : ClockTrackerFn := fun _ t => if t = 3 then none else some t

/-- Concrete compact-scheduling input whose switch deltas `[1, 2, 5]` yield
prefix sums `[1, 3, 8]` (resolution fails at row 1) and whose waking deltas
`[3, 1]` yield prefix sums `[3, 4]` (resolution fails at row 0). -/
def schedAbortInput : CompactSched :=
  ⟨[[97]],
   ⟨[1, 2, 5], [0, 0, 0], [0, 0, 0], [0, 0, 0], [0, 0, 0], false⟩,
   ⟨[3, 1], [1, 1], [0, 0], [5, 5], [0, 0], false⟩⟩

/-- Witness for `compact_sched_clock_failure_stops_batch`. -/
theorem compact_sched_clock_failure_stops_batch_witness :
    (TokenizeFtraceCompactSched failAt3 (fun s => s.length)
        BUILTIN_CLOCK_MONOTONIC 0 schedAbortInput).1.emitted.length = 1 ∧
    (TokenizeFtraceCompactSched failAt3 (fun s => s.length)
        BUILTIN_CLOCK_MONOTONIC 0 schedAbortInput).1.clockAbort = true ∧
    (TokenizeFtraceCompactSched failAt3 (fun s => s.length)
        BUILTIN_CLOCK_MONOTONIC 0 schedAbortInput).2.emitted.length = 0 ∧
    (TokenizeFtraceCompactSched failAt3 (fun s => s.length)
        BUILTIN_CLOCK_MONOTONIC 0 schedAbortInput).2.clockAbort = true := by
  have h := compact_sched_clock_failure_stops_batch failAt3
    (fun s => s.length) BUILTIN_CLOCK_MONOTONIC 0 schedAbortInput
    (by decide) (by decide)
  have h1 := h.1 1 3 (by decide)
    (fun j hj v hv => by
      have hj0 : j = 0 := by omega
      subst hj0
      have he : (prefixSums64 0 schedAbortInput.switch.timestamp)[0]?
          = some 1 := by decide
      rw [he] at hv
      injection hv with hv
      subst hv
      decide)
    (by decide) (by decide)
  have h2 := h.2 0 3 (by decide)
    (fun j hj v hv => absurd hj (by omega))
    (by decide) (by decide)
  exact ⟨h1.1, h1.2, h2.1, h2.2⟩

/-- Concrete input for the counter-skipping scenario: the switch batch has
mismatched column lengths (comm column shorter) *and* a parse-error flag
set; the waking batch has a parse-error flag set. -/
def schedAbortInput2 : CompactSched :=
  ⟨[[98]],
   ⟨[1, 2, 5], [0, 0, 0], [0, 0, 0], [0, 0, 0], [0, 0], true⟩,
   ⟨[3], [8], [0], [9], [0], true⟩⟩

/-- Witness for `compact_sched_clock_failure_skips_counter`. -/
theorem compact_sched_clock_failure_skips_counter_witness :
    (TokenizeFtraceCompactSched failAt3 (fun s => s.length)
        BUILTIN_CLOCK_MONOTONIC 0 schedAbortInput2).1.parseErrorCounter = 0 ∧
    (TokenizeFtraceCompactSched failAt3 (fun s => s.length)
        BUILTIN_CLOCK_MONOTONIC 0 schedAbortInput2).2.parseErrorCounter
      = 0 := by
  have h := compact_sched_clock_failure_skips_counter failAt3
    (fun s => s.length) BUILTIN_CLOCK_MONOTONIC 0 schedAbortInput2
    (by decide) (by decide)
  refine ⟨h.1 1 3 (by decide) (fun j hj v hv => ?_) (by decide) (by decide),
          h.2 0 3 (by decide) (fun j hj v hv => absurd hj (by omega))
            (by decide) (by decide)⟩
  have hj0 : j = 0 := by omega
  subst hj0
  have he : (prefixSums64 0 schedAbortInput2.switch.timestamp)[0]?
      = some 1 := by decide
  rw [he] at hv
  injection hv with hv
  subst hv
  decide

/-- Event tokenization on the default boot-time clock never consults the
external clock tracker: the result is the same for any two trackers. -/
theorem tokenizeEvent_boottime_indep (tr₁ tr₂ : ClockTrackerFn) (cpu : Nat)
    (d : List Nat) :
    TokenizeFtraceEvent tr₁ cpu BUILTIN_CLOCK_BOOTTIME d
      = TokenizeFtraceEvent tr₂ cpu BUILTIN_CLOCK_BOOTTIME d := by
  rcases hx : extractTimestamp d with _ | raw <;>
    simp [TokenizeFtraceEvent, hx, ResolveTraceTime]

/-- The switch loop on the default boot-time clock never consults the
external clock tracker. -/
theorem schedSwitchLoop_boottime_indep (tr₁ tr₂ : ClockTrackerFn) (cpu : Nat)
    (table : List Nat) (pe : Bool) :
    ∀ (ts : List Nat) (ps ns rs : List Int) (ms : List Nat) (acc : Int),
      schedSwitchLoop tr₁ BUILTIN_CLOCK_BOOTTIME cpu table pe acc ts ps ns rs ms
        = schedSwitchLoop tr₂ BUILTIN_CLOCK_BOOTTIME cpu table pe
            acc ts ps ns rs ms := by
  intro ts
  induction ts with
  | nil => intro ps ns rs ms acc; rfl
  | cons t ts ih =>
    intro ps ns rs ms acc
    cases ps with
    | nil => rfl
    | cons p ps =>
    cases ns with
    | nil => rfl
    | cons n ns =>
    cases rs with
    | nil => rfl
    | cons r rs =>
    cases ms with
    | nil => rfl
    | cons m ms =>
    by_cases hm : m < table.length
    · simp [schedSwitchLoop, if_pos hm, ResolveTraceTime,
        ih ps ns rs ms (wrap64 (acc + toInt64 t))]
    · simp [schedSwitchLoop, if_neg hm]

/-- The waking loop on the default boot-time clock never consults the
external clock tracker. -/
theorem schedWakingLoop_boottime_indep (tr₁ tr₂ : ClockTrackerFn) (cpu : Nat)
    (table : List Nat) (pe : Bool) :
    ∀ (ts : List Nat) (ps us rs : List Int) (ms : List Nat) (acc : Int),
      schedWakingLoop tr₁ BUILTIN_CLOCK_BOOTTIME cpu table pe acc ts ps us rs ms
        = schedWakingLoop tr₂ BUILTIN_CLOCK_BOOTTIME cpu table pe
            acc ts ps us rs ms := by
  intro ts
  induction ts with
  | nil => intro ps us rs ms acc; rfl
  | cons t ts ih =>
    intro ps us rs ms acc
    cases ps with
    | nil => rfl
    | cons p ps =>
    cases us with
    | nil => rfl
    | cons u us =>
    cases rs with
    | nil => rfl
    | cons r rs =>
    cases ms with
    | nil => rfl
    | cons m ms =>
    by_cases hm : m < table.length
    · simp [schedWakingLoop, if_pos hm, ResolveTraceTime,
        ih ps us rs ms (wrap64 (acc + toInt64 t))]
    · simp [schedWakingLoop, if_neg hm]

/-- Compact-scheduling decoding on the default boot-time clock never
consults the external clock tracker. -/
theorem compactSched_boottime_indep (tr₁ tr₂ : ClockTrackerFn)
    (intern : List Nat → Nat) (cpu : Nat) (c : CompactSched) :
    TokenizeFtraceCompactSched tr₁ intern BUILTIN_CLOCK_BOOTTIME cpu c
      = TokenizeFtraceCompactSched tr₂ intern BUILTIN_CLOCK_BOOTTIME cpu c := by
  unfold TokenizeFtraceCompactSched TokenizeFtraceCompactSchedSwitch
    TokenizeFtraceCompactSchedWaking
  rw [schedSwitchLoop_boottime_indep tr₁ tr₂ cpu (c.intern_table.map intern)
      c.switch.parse_error c.switch.timestamp c.switch.prev_state
      c.switch.next_pid c.switch.next_prio c.switch.comm_index 0,
    schedWakingLoop_boottime_indep tr₁ tr₂ cpu (c.intern_table.map intern)
      c.waking.parse_error c.waking.timestamp c.waking.pid
      c.waking.target_cpu c.waking.prio c.waking.comm_index 0]

/-- C4: the clock-domain selector maps "unspecified" to the fixed default
canonical clock (boot time), for which the external resolver is never called
and raw timestamps are used as-is; "global" maps to a different fixed
canonical clock (monotonic); "local" and any unrecognized selector value
cause tokenization to return a hard error propagated to the caller, with no
counter increment and nothing forwarded. -/
theorem clock_domain_mapping :
    clockIdFor .unspecified = .ok BUILTIN_CLOCK_BOOTTIME ∧
    clockIdFor .global = .ok BUILTIN_CLOCK_MONOTONIC ∧
    BUILTIN_CLOCK_BOOTTIME ≠ BUILTIN_CLOCK_MONOTONIC ∧
    (∀ (tracker : ClockTrackerFn) (ts : Int),
      ResolveTraceTime tracker BUILTIN_CLOCK_BOOTTIME ts = some ts) ∧
    (∀ (tr₁ tr₂ : ClockTrackerFn) (intern : List Nat → Nat) (b : Bundle),
      b.ftrace_clock = .unspecified →
      TokenizeFtraceBundle tr₁ intern b = TokenizeFtraceBundle tr₂ intern b) ∧
    (∀ (tracker : ClockTrackerFn) (intern : List Nat → Nat) (b : Bundle)
        (cpu : Nat),
      (b.ftrace_clock = FtraceClock.local_clock ∨ b.ftrace_clock = .other) →
      b.cpu = some cpu → ¬kMaxCpus < cpu →
      (∃ e, (TokenizeFtraceBundle tracker intern b).status = .error e) ∧
      (TokenizeFtraceBundle tracker intern b).tokenizerErrors = 0 ∧
      (TokenizeFtraceBundle tracker intern b).compactParseErrors = 0 ∧
      (TokenizeFtraceBundle tracker intern b).pushedEvents = [] ∧
      (TokenizeFtraceBundle tracker intern b).pushedSwitch = [] ∧
      (TokenizeFtraceBundle tracker intern b).pushedWaking = []) := by
  refine ⟨rfl, rfl, by decide, fun tracker ts => by simp [ResolveTraceTime],
    ?_, ?_⟩
  · intro tr₁ tr₂ intern b hclk
    rcases b with ⟨cpu?, clk, cs?, evs⟩
    simp only at hclk
    subst hclk
    cases cpu? with
    | none => rfl
    | some cpu =>
      by_cases h : kMaxCpus < cpu
      · simp [TokenizeFtraceBundle, h]
      · have hef : TokenizeFtraceEvent tr₁ cpu BUILTIN_CLOCK_BOOTTIME
            = TokenizeFtraceEvent tr₂ cpu BUILTIN_CLOCK_BOOTTIME :=
          funext (tokenizeEvent_boottime_indep tr₁ tr₂ cpu)
        cases cs? with
        | none => simp [TokenizeFtraceBundle, h, clockIdFor, hef]
        | some c =>
          simp [TokenizeFtraceBundle, h, clockIdFor, hef,
            compactSched_boottime_indep tr₁ tr₂ intern cpu c]
  · intro tracker intern b cpu hclk hcpu h
    rcases b with ⟨cpu?, clk, cs?, evs⟩
    simp only at hclk hcpu
    subst hcpu
    rcases hclk with hclk | hclk <;> subst hclk
    · refine ⟨⟨"Unable to parse ftrace packets with local clock", ?_⟩,
        ?_, ?_, ?_, ?_, ?_⟩ <;> simp [TokenizeFtraceBundle, h, clockIdFor]
    · refine ⟨⟨"Unable to parse ftrace packets with unknown clock", ?_⟩,
        ?_, ?_, ?_, ?_, ?_⟩ <;> simp [TokenizeFtraceBundle, h, clockIdFor]

/-- Witness for `clock_domain_mapping`: the tracker-independence conjunct at
a concrete bundle with the unspecified clock and two distinct trackers, and
the hard-error conjunct at a concrete bundle with the local clock. -/
theorem clock_domain_mapping_witness :
    TokenizeFtraceBundle (fun _ _ => none) (fun _ => 0)
        ⟨some 0, .unspecified, none, [[8, 7]]⟩
      = TokenizeFtraceBundle (fun _ t => some (t + 1)) (fun _ => 0)
        ⟨some 0, .unspecified, none, [[8, 7]]⟩ ∧
    (∃ e, (TokenizeFtraceBundle (fun _ _ => none) (fun _ => 0)
        ⟨some 0, FtraceClock.local_clock, none, [[8, 7]]⟩).status
          = .error e) ∧
    (TokenizeFtraceBundle (fun _ _ => none) (fun _ => 0)
        ⟨some 0, FtraceClock.local_clock, none, [[8, 7]]⟩).pushedEvents
      = [] := by
  refine ⟨clock_domain_mapping.2.2.2.2.1 (fun _ _ => none)
      (fun _ t => some (t + 1)) (fun _ => 0)
      ⟨some 0, .unspecified, none, [[8, 7]]⟩ rfl, ?_, ?_⟩
  · exact (clock_domain_mapping.2.2.2.2.2 (fun _ _ => none) (fun _ => 0)
      ⟨some 0, FtraceClock.local_clock, none, [[8, 7]]⟩ 0
      (Or.inl rfl) rfl (by decide)).1
  · exact (clock_domain_mapping.2.2.2.2.2 (fun _ _ => none) (fun _ => 0)
      ⟨some 0, FtraceClock.local_clock, none, [[8, 7]]⟩ 0
      (Or.inl rfl) rfl (by decide)).2.2.2.1

end FtraceTokenizer
